import Mathlib

/-!
Verification of the lip-sync pipeline orchestration module
(`src/lipsync_tool/pipeline.py`).

The module is embedded shallowly: filesystem state is a `World` (directories,
regular files with content and modification time, plus an action trace used to
observe which external operations ran).  External processes (git clone, gdown
download, the model-download helper script, the inference entry point, ffmpeg)
are opaque: an `Env` record describes, for one run, whether each succeeds and
which files it creates.  Python exceptions raised by the module are the
constructors of `PyErr`; fallible code runs in the monad `M`, which threads a
`World` and short-circuits on a raised exception while keeping the state at
the raise point (matching an exception propagating out of the Python code).
-/

/-- A filesystem path, as the list of its components (`pathlib.Path.parts`).
Relative paths such as `.cache/wav2lip` become `[".cache", "wav2lip"]`. -/
abbrev FsPath := List String

/-- `str(path)`: components joined with `/`. -/
def renderPath (p : FsPath) : String := String.intercalate "/" p

/-- Metadata of a regular file: its byte content and modification time. -/
structure FileData where
  content : String
  mtime : Nat
deriving DecidableEq, Repr

/-- Observable external effects of the module, recorded in a trace.
`mkdirCall` and `warn` are local bookkeeping; `gitClone`, `gdown`,
`runScript` and `copyFile` are the acquisition operations of the
provisioners; `inferProc`, `ffmpeg`, `moveCall`, `rmtreeCall` belong to the
invocation / finalization stages. -/
inductive FsAction where
  | mkdirCall (p : FsPath)
  | gitClone (url : String) (dest : FsPath)
  | gdown (url : String) (dest : FsPath)
  | runScript (script : FsPath)
  | copyFile (src dst : FsPath)
  | inferProc (cmd : List String)
  | ffmpeg (cmd : List String)
  | moveCall (src dst : FsPath)
  | rmtreeCall (p : FsPath)
  | warn (msg : String)
deriving DecidableEq, Repr

/-- The Python exceptions this module raises: `FileNotFoundError`,
`subprocess.CalledProcessError` (from `subprocess.run(..., check=True)`),
and `ValueError`.  No other exception is raised anywhere in the source. -/
inductive PyErr where
  | fileNotFound (msg : String)
  | calledProcessError (cmd : List String)
  | valueError (msg : String)
deriving DecidableEq, Repr

/-- The mutable world: directories, files, and the trace of actions run. -/
structure World where
  dirs : List FsPath
  files : List (FsPath × FileData)
  log : List FsAction
deriving DecidableEq, Repr

/-- Result of running a stateful computation: a value or a raised exception,
with the world at that point (state survives a raise, as in Python). -/
inductive Res (α : Type) where
  | ok (a : α) (w : World)
  | err (e : PyErr) (w : World)
deriving DecidableEq, Repr

def Res.world : Res α → World
  | .ok _ w => w
  | .err _ w => w

def Res.isOk : Res α → Bool
  | .ok _ _ => true
  | .err _ _ => false

def Res.isErr : Res α → Bool
  | .ok _ _ => false
  | .err _ _ => true

def Res.errOf : Res α → Option PyErr
  | .ok _ _ => none
  | .err e _ => some e

def Res.valOf : Res α → Option α
  | .ok a _ => some a
  | .err _ _ => none

/-- The state-plus-exceptions monad the embedded code runs in. -/
def M (α : Type) : Type := World → Res α

/-- Run an embedded computation on an initial world. -/
def M.run (x : M α) (w : World) : Res α := x w

instance : Monad M where
  pure a := fun w => .ok a w
  bind x f := fun w =>
    match x w with
    | .ok a w' => M.run (f a) w'
    | .err e w' => .err e w'

/-- Raise a Python exception. -/
def M.fail (e : PyErr) : M α := fun w => .err e w

/-- Read the current world. -/
def M.getW : M World := fun w => .ok w w

/-- Transform the current world. -/
def M.modifyW (f : World → World) : M Unit := fun w => .ok () (f w)

theorem M.run_pure (a : α) (w : World) : M.run (pure a) w = .ok a w := rfl

theorem M.run_bind (x : M α) (f : α → M β) (w : World) :
    M.run (x >>= f) w =
      match M.run x w with
      | .ok a w' => M.run (f a) w'
      | .err e w' => .err e w' := rfl

theorem M.run_fail (e : PyErr) (w : World) : M.run (M.fail e : M α) w = .err e w := rfl

theorem M.run_getW (w : World) : M.run M.getW w = .ok w w := rfl

theorem M.run_modifyW (f : World → World) (w : World) :
    M.run (M.modifyW f) w = .ok () (f w) := rfl

theorem M.run_ite {c : Prop} [Decidable c] (x y : M α) (w : World) :
    M.run (if c then x else y) w = if c then M.run x w else M.run y w :=
  apply_ite (fun t : M α => M.run t w) c x y

/-- Append one action to the trace. -/
def logA (a : FsAction) : M Unit := M.modifyW fun w => { w with log := w.log ++ [a] }

/-- `path.exists()`: true if `p` is a directory or a regular file. -/
def pathExistsB (w : World) (p : FsPath) : Bool :=
  w.dirs.contains p || w.files.any (fun f => f.1 == p)

/-- Content lookup for a regular file. -/
def lookupFile (w : World) (p : FsPath) : Option FileData :=
  (w.files.find? (fun f => f.1 == p)).map (·.2)

/-- Replace-or-add a file entry (a write-through create/overwrite). -/
def insertFileL (p : FsPath) (d : FileData) (fs : List (FsPath × FileData)) :
    List (FsPath × FileData) :=
  (p, d) :: fs.filter (fun f => !(f.1 == p))

def insertFileW (p : FsPath) (d : FileData) (w : World) : World :=
  { w with files := insertFileL p d w.files }

/-- Create several files (the opaque effect of an external process). -/
def insertFilesL (new : List (FsPath × FileData)) (fs : List (FsPath × FileData)) :
    List (FsPath × FileData) :=
  new.foldl (fun acc f => insertFileL f.1 f.2 acc) fs

def insertFilesW (new : List (FsPath × FileData)) (w : World) : World :=
  { w with files := insertFilesL new w.files }

/-- All ancestors of a path, itself included (what `mkdir(parents=True)`
creates). -/
def prefixesOf : FsPath → List FsPath
  | [] => [[]]
  | x :: xs => [] :: (prefixesOf xs).map (x :: ·)

/-- Insert a directory if absent. -/
def insertDir (ds : List FsPath) (q : FsPath) : List FsPath :=
  if q ∈ ds then ds else ds ++ [q]

/-- `p.mkdir(parents=True, exist_ok=True)` on the directory set. -/
def mkdirFS (p : FsPath) (w : World) : World :=
  { w with dirs := (prefixesOf p).foldl insertDir w.dirs }

/-- `p.mkdir(parents=True, exist_ok=True)`, with its trace entry. -/
def mkdirPrim (p : FsPath) : M Unit := do
  logA (.mkdirCall p)
  M.modifyW (mkdirFS p)

/-- `shutil.rmtree(p)` on the world: drop `p` and everything below it. -/
def rmtreeFS (p : FsPath) (w : World) : World :=
  { w with
    dirs := w.dirs.filter (fun q => !(p.isPrefixOf q)),
    files := w.files.filter (fun f => !(p.isPrefixOf f.1)) }

/-- `shutil.rmtree`; the module only calls it guarded by an existence check
or with `ignore_errors=True`, so it never raises here. -/
def rmtreePrim (p : FsPath) : M Unit := do
  logA (.rmtreeCall p)
  M.modifyW (rmtreeFS p)

/-- `any(dir.rglob("*"))`: is anything (file or directory) strictly below
`p`? -/
def rglobAnyB (w : World) (p : FsPath) : Bool :=
  w.dirs.any (fun q => p.isPrefixOf q && !(q == p)) ||
    w.files.any (fun f => p.isPrefixOf f.1 && !(f.1 == p))

/-! ## String helpers (Python semantics) -/

/-- Code-point lexicographic comparison on character lists (the order Python
uses when sorting strings). -/
def charsLe : List Char → List Char → Bool
  | [], _ => true
  | _ :: _, [] => false
  | a :: as, b :: bs => if a = b then charsLe as bs else decide (a < b)

/-- `a <= b` for Python string sorting. -/
def strLeB (a b : String) : Bool := charsLe a.data b.data

/-- Insert into a `strLeB`-sorted list. -/
def insertLe (x : String) : List String → List String
  | [] => [x]
  | y :: ys => if strLeB x y then x :: y :: ys else y :: insertLe x ys

/-- Insertion sort with the Python string order (what `sorted` does to the
paths of a `glob` result that share one parent directory). -/
def sortStrings : List String → List String
  | [] => []
  | x :: xs => insertLe x (sortStrings xs)

/-- Split off everything after the last dot: `some (st, ex)` when
`cs = st ++ '.' :: ex` with no dot in `ex`. -/
def splitLastDot : List Char → Option (List Char × List Char)
  | [] => none
  | c :: cs =>
    match splitLastDot cs with
    | some (st, ex) => some (c :: st, ex)
    | none => if c = '.' then some ([], cs) else none

/-- `pathlib.PurePath.stem` on the characters of a file name: the name minus
its suffix, where a suffix starts at the last dot and must be neither the
whole name (leading dot) nor empty (trailing dot). -/
def stemChars (cs : List Char) : List Char :=
  match splitLastDot cs with
  | some (st, ex) => if st = [] ∨ ex = [] then cs else st
  | none => cs

/-- `Path(name).stem` for a single path component. -/
def pathStemStr (s : String) : String := ⟨stemChars s.data⟩

/-- Last path component (`path.name`), empty for the empty path. -/
def lastComponent (p : FsPath) : String := p.getLastD ""

/-- `path.parent` as a component list. -/
def parentPath (p : FsPath) : FsPath := p.dropLast

/-! ## Python floats

The settings records hold Python floats that the module only ever compares
for (in)equality with `0`/`1.0` and renders with `str`.  They are embedded
as exact decimals `man / 10 ^ exp`, with numeric equality and with the
decimal rendering `str` produces on such values. -/

structure PyFloat where
  man : Int
  exp : Nat
deriving DecidableEq, Repr

/-- Numeric equality (`==` on Python floats). -/
def PyFloat.eqB (a b : PyFloat) : Bool :=
  a.man * (10 : Int) ^ b.exp == b.man * (10 : Int) ^ a.exp

/-- Python truthiness of a float (`0.0` is falsy). -/
def PyFloat.truthy (a : PyFloat) : Bool := !(a.man == 0)

/-- Decimal digits of `n`, most significant first (19 digits of fuel). -/
def natDigits : Nat → Nat → List Char
  | 0, _ => []
  | fuel + 1, n => if n < 10 then [Nat.digitChar n] else natDigits fuel (n / 10) ++ [Nat.digitChar (n % 10)]

def natToStr (n : Nat) : String := ⟨natDigits 19 n⟩

/-- Drop trailing zero digits of a fractional part. -/
def stripTrailingZeros (cs : List Char) : List Char :=
  (cs.reverse.dropWhile (· = '0')).reverse

/-- Left-pad with zeros to width `k`. -/
def padZeros (k : Nat) (cs : List Char) : List Char :=
  List.replicate (k - cs.length) '0' ++ cs

/-- `str` of a Python float that is an exact short decimal (all the values
this module renders: `1.0`, `0.5`, ...). -/
def pyFloatStr (f : PyFloat) : String :=
  let sign := if f.man < 0 then "-" else ""
  let n := f.man.natAbs
  let base := (10 : Nat) ^ f.exp
  let ip := n / base
  let frac := stripTrailingZeros (padZeros f.exp (natDigits 19 (n % base)))
  if frac.isEmpty then sign ++ natToStr ip ++ ".0"
  else sign ++ natToStr ip ++ "." ++ ⟨frac⟩

/-- `str(int)` for the integer-valued knobs (pads, crop, batch sizes). -/
def intToStr (i : Int) : String :=
  if i < 0 then "-" ++ natToStr i.natAbs else natToStr i.natAbs

/-! ## The opaque external environment

What the external processes would do in this run.  The module treats them as
black boxes: it only observes their exit status and the files they leave
behind, which is exactly what `Env` records. -/

structure Env where
  /-- Exit status of `git clone`. -/
  cloneOk : Bool
  /-- Files a successful clone leaves on disk (absolute paths). -/
  cloneFiles : List (FsPath × FileData)
  /-- For each URL `gdown.download` is given: the file content it writes.
  A URL that is absent produces no file (gdown reports failure through its
  return value, which the module ignores). -/
  downloads : List (String × FileData)
  /-- Exit status of the SadTalker `download_models` helper script. -/
  scriptOk : Bool
  /-- Files a successful helper-script run creates. -/
  scriptFiles : List (FsPath × FileData)
  /-- Exit status of the backend inference entry point. -/
  inferOk : Bool
  /-- Files a successful inference run creates. -/
  inferFiles : List (FsPath × FileData)
  /-- Exit status of ffmpeg. -/
  ffmpegOk : Bool
  /-- Content ffmpeg writes at the destination on success. -/
  ffmpegOut : FileData

/-- Placeholder for `sys.executable` in constructed command lines. -/
def sysExecutable : String := "python"

/-- `subprocess.run(["git", "clone", "--depth", "1", url, dest], check=True)`. -/
def gitClonePrim (env : Env) (url : String) (dest : FsPath) : M Unit := do
  logA (.gitClone url dest)
  if env.cloneOk then M.modifyW (fun w => insertFilesW env.cloneFiles (mkdirFS dest w))
  else M.fail (.calledProcessError ["git", "clone", "--depth", "1", url, renderPath dest])

/-- `gdown.download(url, str(destination), quiet=False)`: writes whatever the
network returns for `url`; the return value is not checked by the module. -/
def gdownPrim (env : Env) (url : String) (dest : FsPath) : M Unit := do
  logA (.gdown url dest)
  match env.downloads.lookup url with
  | some d => M.modifyW (insertFileW dest d)
  | none => pure ()

/-- `shutil.copy2(src, dst)` (metadata-preserving copy). -/
def copy2Prim (src dst : FsPath) : M Unit := do
  let w ← M.getW
  match lookupFile w src with
  | some d => do
      logA (.copyFile src dst)
      M.modifyW (insertFileW dst d)
  | none => M.fail (.fileNotFound ("copy2: " ++ renderPath src))

/-- `shutil.move(src, dst)` for a regular file. -/
def moveFilePrim (src dst : FsPath) : M Unit := do
  let w ← M.getW
  match lookupFile w src with
  | some d => do
      logA (.moveCall src dst)
      M.modifyW (fun w' =>
        { w' with files := insertFileL dst d (w'.files.filter (fun f => !(f.1 == src))) })
  | none => M.fail (.fileNotFound ("move: " ++ renderPath src))

/-- Run the backend inference entry point (`subprocess.run(command, ...,
check=True)`): on success the opaque process leaves `env.inferFiles` behind,
otherwise `CalledProcessError` is raised. -/
def inferProcPrim (env : Env) (cmd : List String) : M Unit := do
  logA (.inferProc cmd)
  if env.inferOk then M.modifyW (insertFilesW env.inferFiles)
  else M.fail (.calledProcessError cmd)

/-! ## The provisioners (`SadTalkerResources`, `Wav2LipResources`) -/

/-- Mirrors the `SadTalkerResources` dataclass (defaults included). -/
structure SadTalkerResources where
  root_dir : FsPath := [".cache", "sadtalker"]
  repo_url : String := "https://github.com/OpenTalker/SadTalker.git"
  models_script : FsPath := ["scripts", "download_models.py"]
  checkpoints_subdir : String := "checkpoints"
deriving DecidableEq, Repr

def SadTalkerResources.repo_path (r : SadTalkerResources) : FsPath :=
  r.root_dir ++ ["repo"]

def SadTalkerResources.checkpoints_path (r : SadTalkerResources) : FsPath :=
  r.repo_path ++ [r.checkpoints_subdir]

/-- `SadTalkerResources._download_checkpoints`: requires the helper script to
exist, then runs it; a successful run leaves `env.scriptFiles` behind. -/
def SadTalkerResources.download_checkpoints (env : Env) (r : SadTalkerResources)
    (resolution : Nat) : M Unit := do
  let script := r.repo_path ++ r.models_script
  let w ← M.getW
  if pathExistsB w script then do
    logA (.runScript script)
    if env.scriptOk then M.modifyW (insertFilesW env.scriptFiles)
    else M.fail (.calledProcessError
      [sysExecutable, renderPath script, "--model_folder",
        renderPath r.checkpoints_path, "--resolution", natToStr resolution])
  else
    M.fail (.fileNotFound ("SadTalker download script not found at " ++ renderPath script))

/-- `SadTalkerResources.ensure(resolution=...)`: clone the repository if its
directory is absent, then run the checkpoint download helper if nothing is
below the checkpoints directory. -/
def SadTalkerResources.ensure (env : Env) (r : SadTalkerResources)
    (resolution : Nat) : M Unit :=
  mkdirPrim r.root_dir >>= fun _ =>
  M.getW >>= fun w =>
  (if pathExistsB w r.repo_path then pure ()
    else gitClonePrim env r.repo_url r.repo_path) >>= fun _ =>
  M.getW >>= fun w' =>
  if rglobAnyB w' r.checkpoints_path then pure ()
  else r.download_checkpoints env resolution

def WAV2LIP_CHECKPOINT_URL : String :=
  "https://drive.google.com/uc?id=1cwRmZm4EUdS6WZfiP2spXK7pbybY2coh"

def S3FD_CHECKPOINT_URL : String :=
  "https://drive.google.com/uc?id=1ER8mWj4lfUYSS-uMndZX45phBORp_ZO7"

/-- Mirrors the `Wav2LipResources` dataclass (defaults included). -/
structure Wav2LipResources where
  root_dir : FsPath := [".cache", "wav2lip"]
  repo_url : String := "https://github.com/Rudrabha/Wav2Lip.git"
  checkpoints_subdir : String := "checkpoints"
  wav2lip_filename : String := "wav2lip.pth"
  face_detector_filename : String := "s3fd.pth"
deriving DecidableEq, Repr

def Wav2LipResources.repo_path (r : Wav2LipResources) : FsPath :=
  r.root_dir ++ ["repo"]

def Wav2LipResources.checkpoints_path (r : Wav2LipResources) : FsPath :=
  r.root_dir ++ [r.checkpoints_subdir]

def Wav2LipResources.wav2lip_checkpoint (r : Wav2LipResources) : FsPath :=
  r.checkpoints_path ++ [r.wav2lip_filename]

def Wav2LipResources.face_detector_checkpoint (r : Wav2LipResources) : FsPath :=
  r.checkpoints_path ++ [r.face_detector_filename]

/-- The path inside the cloned source tree the face detector is mirrored to
(`repo/face_detection/detection/sfd/<face_detector_filename>`). -/
def Wav2LipResources.repo_detector (r : Wav2LipResources) : FsPath :=
  r.repo_path ++ ["face_detection", "detection", "sfd", r.face_detector_filename]

/-- `Wav2LipResources._sync_detector_into_repo`. -/
def Wav2LipResources.sync_detector_into_repo (r : Wav2LipResources) : M Unit :=
  mkdirPrim (parentPath r.repo_detector) >>= fun _ =>
  M.getW >>= fun w =>
  if pathExistsB w r.repo_detector then pure ()
  else copy2Prim r.face_detector_checkpoint r.repo_detector

/-- `Wav2LipResources.ensure()`: clone the repository if absent, download the
two checkpoints that are missing, and mirror the face detector into the
repository tree. -/
def Wav2LipResources.ensure (env : Env) (r : Wav2LipResources) : M Unit :=
  mkdirPrim r.root_dir >>= fun _ =>
  M.getW >>= fun w =>
  (if pathExistsB w r.repo_path then pure ()
    else gitClonePrim env r.repo_url r.repo_path) >>= fun _ =>
  mkdirPrim r.checkpoints_path >>= fun _ =>
  M.getW >>= fun w1 =>
  (if pathExistsB w1 r.wav2lip_checkpoint then pure ()
    else gdownPrim env WAV2LIP_CHECKPOINT_URL r.wav2lip_checkpoint) >>= fun _ =>
  M.getW >>= fun w2 =>
  (if pathExistsB w2 r.face_detector_checkpoint then pure ()
    else gdownPrim env S3FD_CHECKPOINT_URL r.face_detector_checkpoint) >>= fun _ =>
  r.sync_detector_into_repo

/-! ## Settings and the pipeline -/

/-- Mirrors the `SadTalkerSettings` dataclass. -/
structure SadTalkerSettings where
  preprocess : String := "full"
  expression_scale : PyFloat := ⟨1, 0⟩
  still_mode : Bool := true
  enhancer : Option String := none
deriving DecidableEq, Repr

/-- Mirrors the `Wav2LipSettings` dataclass. -/
structure Wav2LipSettings where
  pads : List Int := [0, 10, 0, 0]
  static : Bool := true
  nosmooth : Bool := false
  wav2lip_batch_size : Option Int := none
  face_det_batch_size : Option Int := none
  resize_factor : PyFloat := ⟨1, 0⟩
  crop : Option (List Int) := none
deriving DecidableEq, Repr

/-- Python truthiness of an `int | None` field (both `None` and `0` are
falsy). -/
def truthyOptInt : Option Int → Bool
  | none => false
  | some n => !(n == 0)

/-- Python truthiness of a `Sequence | None` field (both `None` and an empty
sequence are falsy). -/
def truthyOptList : Option (List Int) → Bool
  | none => false
  | some l => !l.isEmpty

/-- Mirrors the `LipSyncPipeline` dataclass.  `engine` is a plain string, as
it is at runtime (the `Literal` annotation in the source is not enforced by
Python, and `run()` has an explicit unsupported-engine branch). -/
structure LipSyncPipeline where
  engine : String
  fps : Nat := 25
  upscale_to_1080p : Bool := true
  keep_intermediate : Bool := false
  resolution : Nat := 512
  sadtalker_resources : SadTalkerResources := {}
  wav2lip_resources : Wav2LipResources := {}
  sadtalker_settings : SadTalkerSettings := {}
  wav2lip_settings : Wav2LipSettings := {}
deriving DecidableEq, Repr

/-- The argument list `_run_sadtalker` builds for the inference entry point. -/
def sadtalkerCommand (res : SadTalkerResources) (st : SadTalkerSettings)
    (resolution fps : Nat) (image audio destination : FsPath) : List String :=
  let command :=
    [sysExecutable, renderPath (res.repo_path ++ ["inference.py"]),
      "--driven_audio", renderPath audio,
      "--source_image", renderPath image,
      "--checkpoint_dir", renderPath res.checkpoints_path,
      "--result_dir", renderPath destination,
      "--preprocess", st.preprocess,
      "--expression_scale", pyFloatStr st.expression_scale,
      "--size", natToStr resolution,
      "--fps", natToStr fps]
  let command := if st.still_mode then command ++ ["--still"] else command
  match st.enhancer with
  | some e => if e == "" then command else command ++ ["--enhancer", e]
  | none => command

/-- The argument list `_run_wav2lip` builds for the inference entry point.
Each optional knob is appended only when the corresponding settings field is
truthy (and, for `resize_factor`, not equal to `1.0`), exactly as in the
source. -/
def wav2lipCommand (res : Wav2LipResources) (st : Wav2LipSettings)
    (fps : Nat) (image audio output_file : FsPath) : List String :=
  let command :=
    [sysExecutable, renderPath (res.repo_path ++ ["inference.py"]),
      "--checkpoint_path", renderPath res.wav2lip_checkpoint,
      "--face", renderPath image,
      "--audio", renderPath audio,
      "--outfile", renderPath output_file,
      "--fps", natToStr fps,
      "--pads"] ++ st.pads.map intToStr
  let command := if st.static then command ++ ["--static"] else command
  let command := if st.nosmooth then command ++ ["--nosmooth"] else command
  let command :=
    if truthyOptInt st.wav2lip_batch_size then
      command ++ ["--wav2lip_batch_size", intToStr (st.wav2lip_batch_size.getD 0)]
    else command
  let command :=
    if truthyOptInt st.face_det_batch_size then
      command ++ ["--face_det_batch_size", intToStr (st.face_det_batch_size.getD 0)]
    else command
  let command :=
    if PyFloat.truthy st.resize_factor && !(PyFloat.eqB st.resize_factor ⟨1, 0⟩) then
      command ++ ["--resize_factor", pyFloatStr st.resize_factor]
    else command
  if truthyOptList st.crop then
    command ++ "--crop" :: (st.crop.getD []).map intToStr
  else command

/-- The `*.mp4` glob of a directory, sorted the way
`sorted(directory.glob("*.mp4"))` sorts it: the names of the regular files
directly inside `directory` that end in `.mp4`, in code-point order. -/
def globMp4 (fs : List (FsPath × FileData)) (directory : FsPath) : List String :=
  sortStrings (fs.filterMap (fun f =>
    if f.1.dropLast == directory then
      match f.1.getLast? with
      | some nm => if String.data ".mp4" |>.isSuffixOf nm.data then some nm else none
      | none => none
    else none))

/-- `LipSyncPipeline._select_generated_video`: pick the first `.mp4` of the
sorted glob, warning when the choice is ambiguous, raising
`FileNotFoundError` when there is none. -/
def select_generated_video (directory : FsPath) : M FsPath :=
  M.getW >>= fun w =>
  match globMp4 w.files directory with
  | [] => M.fail (.fileNotFound
      ("No outputs found in " ++ renderPath directory ++ ". Expected an mp4 file."))
  | c :: rest =>
      (if rest.isEmpty then pure ()
        else logA (.warn ("Multiple outputs detected; selecting " ++
          renderPath (directory ++ [c])))) >>= fun _ =>
      pure (directory ++ [c])

/-- `LipSyncPipeline._run_sadtalker`. -/
def LipSyncPipeline.run_sadtalker (env : Env) (p : LipSyncPipeline)
    (image audio destination : FsPath) : M FsPath := do
  p.sadtalker_resources.ensure env p.resolution
  inferProcPrim env
    (sadtalkerCommand p.sadtalker_resources p.sadtalker_settings p.resolution p.fps
      image audio destination)
  select_generated_video destination

/-- `LipSyncPipeline._run_wav2lip`. -/
def LipSyncPipeline.run_wav2lip (env : Env) (p : LipSyncPipeline)
    (image audio destination : FsPath) : M FsPath := do
  p.wav2lip_resources.ensure env
  let output_file := destination ++ ["result.mp4"]
  inferProcPrim env
    (wav2lipCommand p.wav2lip_resources p.wav2lip_settings p.fps image audio output_file)
  let w ← M.getW
  if pathExistsB w output_file then pure output_file
  else M.fail (.fileNotFound
    ("Expected Wav2Lip output at " ++ renderPath output_file ++ ", but the file was not created."))

/-- The fixed ffmpeg invocation of `_upscale_to_1080p`. -/
def ffmpegCommand (src dst : FsPath) : List String :=
  ["ffmpeg", "-y", "-i", renderPath src,
    "-vf", "scale=1920:1080:flags=bicubic",
    "-c:v", "libx264", "-preset", "medium", "-crf", "18",
    "-c:a", "copy", renderPath dst]

/-- `LipSyncPipeline._upscale_to_1080p`: one ffmpeg invocation, raising
`CalledProcessError` on a non-zero exit, writing the destination on
success. -/
def upscale_to_1080p_stage (env : Env) (src dst : FsPath) : M Unit := do
  logA (.ffmpeg (ffmpegCommand src dst))
  if env.ffmpegOk then M.modifyW (insertFileW dst env.ffmpegOut)
  else M.fail (.calledProcessError (ffmpegCommand src dst))

/-- The scratch directory `run()` derives from the output path:
`output.parent / (output.stem + "_" + engine)`. -/
def scratchPath (p : LipSyncPipeline) (output_path : FsPath) : FsPath :=
  parentPath output_path ++ [pathStemStr (lastComponent output_path) ++ "_" ++ p.engine]

/-- Lines 210-215 of `run()`: create the output parent, delete a stale
scratch directory unless intermediates are kept, recreate the scratch
directory, and hand it back. -/
def LipSyncPipeline.runSetup (p : LipSyncPipeline) (output_path : FsPath) : M FsPath :=
  mkdirPrim (parentPath output_path) >>= fun _ =>
  let temp_output_dir := scratchPath p output_path
  M.getW >>= fun w =>
  (if !p.keep_intermediate && pathExistsB w temp_output_dir then rmtreePrim temp_output_dir
    else pure ()) >>= fun _ =>
  mkdirPrim temp_output_dir >>= fun _ =>
  pure temp_output_dir

/-- Lines 217-222 of `run()`: dispatch on the engine string, raising
`ValueError` for anything but the two supported backends. -/
def LipSyncPipeline.dispatchEngine (env : Env) (p : LipSyncPipeline)
    (image audio temp_output_dir : FsPath) : M FsPath :=
  if p.engine == "sadtalker" then p.run_sadtalker env image audio temp_output_dir
  else if p.engine == "wav2lip" then p.run_wav2lip env image audio temp_output_dir
  else M.fail (.valueError ("Unsupported engine: " ++ p.engine))

/-- Lines 224-233 of `run()`: upscale or move the produced video to the
final output path, then remove the scratch directory on the success path
unless intermediates are kept. -/
def LipSyncPipeline.finalize (env : Env) (p : LipSyncPipeline)
    (temp_output output_path temp_output_dir : FsPath) : M FsPath :=
  (if p.upscale_to_1080p then upscale_to_1080p_stage env temp_output output_path
    else moveFilePrim temp_output output_path) >>= fun _ =>
  (if !p.keep_intermediate then rmtreePrim temp_output_dir
    else pure ()) >>= fun _ =>
  pure output_path

/-- `LipSyncPipeline.run`, phased exactly as the source body is. -/
def LipSyncPipeline.run (env : Env) (p : LipSyncPipeline)
    (image_path audio_path output_path : FsPath) : M FsPath := do
  let temp_output_dir ← p.runSetup output_path
  let temp_output ← p.dispatchEngine env image_path audio_path temp_output_dir
  p.finalize env temp_output output_path temp_output_dir

/-! ## Classification of traced actions -/

/-- The acquisition operations: network or disk I/O beyond existence checks
(cloning, downloading, running the download helper, copying a checkpoint). -/
def FsAction.isAcquisition : FsAction → Bool
  | .gitClone _ _ => true
  | .gdown _ _ => true
  | .runScript _ => true
  | .copyFile _ _ => true
  | _ => false

/-- A trace that contains no acquisition operation. -/
def acquisitionFree (l : List FsAction) : Bool :=
  l.all (fun a => ! a.isAcquisition)

/-! ## Everything-present predicates for the provisioners -/

/-- Everything `SadTalkerResources.ensure` checks for is present: the cache
root (with its ancestors), the cloned repository directory, and at least one
entry below the checkpoints directory. -/
def sadtalkerReady (r : SadTalkerResources) (w : World) : Prop :=
  (∀ q ∈ prefixesOf r.root_dir, q ∈ w.dirs) ∧
  pathExistsB w r.repo_path = true ∧
  rglobAnyB w r.checkpoints_path = true

instance (r : SadTalkerResources) (w : World) : Decidable (sadtalkerReady r w) := by
  unfold sadtalkerReady; infer_instance

/-- Everything `Wav2LipResources.ensure` checks for is present: cache root,
cloned repository, checkpoints directory, both checkpoint files, and the
face-detector copy inside the repository tree. -/
def wav2lipReady (r : Wav2LipResources) (w : World) : Prop :=
  (∀ q ∈ prefixesOf r.root_dir, q ∈ w.dirs) ∧
  pathExistsB w r.repo_path = true ∧
  (∀ q ∈ prefixesOf r.checkpoints_path, q ∈ w.dirs) ∧
  pathExistsB w r.wav2lip_checkpoint = true ∧
  pathExistsB w r.face_detector_checkpoint = true ∧
  (∀ q ∈ prefixesOf (parentPath r.repo_detector), q ∈ w.dirs) ∧
  pathExistsB w r.repo_detector = true

instance (r : Wav2LipResources) (w : World) : Decidable (wav2lipReady r w) := by
  unfold wav2lipReady; infer_instance

/-! ## No-op lemmas for `ensure` when everything is present -/

theorem foldl_insertDir_of_mem (L : List FsPath) (ds : List FsPath)
    (h : ∀ q ∈ L, q ∈ ds) : L.foldl insertDir ds = ds := by
  induction L with
  | nil => rfl
  | cons x xs ih =>
      simp only [List.foldl_cons, insertDir, if_pos (h x (by simp))]
      exact ih fun q hq => h q (by simp [hq])

theorem mkdirFS_noop (p : FsPath) (w : World)
    (h : ∀ q ∈ prefixesOf p, q ∈ w.dirs) : mkdirFS p w = w := by
  simp [mkdirFS, foldl_insertDir_of_mem _ _ h]

/-- Append entries to the trace of a world (used to express that an
operation only logged, leaving files and directories untouched). -/
def addLog (w : World) (l : List FsAction) : World :=
  { w with log := w.log ++ l }

@[simp] theorem addLog_dirs (w : World) (l : List FsAction) : (addLog w l).dirs = w.dirs := rfl

@[simp] theorem addLog_files (w : World) (l : List FsAction) : (addLog w l).files = w.files := rfl

@[simp] theorem addLog_log (w : World) (l : List FsAction) : (addLog w l).log = w.log ++ l := rfl

@[simp] theorem addLog_addLog (w : World) (l l' : List FsAction) :
    addLog (addLog w l) l' = addLog w (l ++ l') := by
  simp [addLog]

@[simp] theorem addLog_nil (w : World) : addLog w [] = w := by
  simp [addLog]

@[simp] theorem pathExistsB_addLog (w : World) (l : List FsAction) (p : FsPath) :
    pathExistsB (addLog w l) p = pathExistsB w p := rfl

@[simp] theorem rglobAnyB_addLog (w : World) (l : List FsAction) (p : FsPath) :
    rglobAnyB (addLog w l) p = rglobAnyB w p := rfl

@[simp] theorem lookupFile_addLog (w : World) (l : List FsAction) (p : FsPath) :
    lookupFile (addLog w l) p = lookupFile w p := rfl

theorem run_logA (a : FsAction) (w : World) :
    M.run (logA a) w = .ok () (addLog w [a]) := rfl

theorem run_mkdirPrim (p : FsPath) (w : World) :
    M.run (mkdirPrim p) w = .ok () (mkdirFS p (addLog w [.mkdirCall p])) := rfl

theorem mkdirPrim_noop (p : FsPath) (w : World)
    (h : ∀ q ∈ prefixesOf p, q ∈ w.dirs) :
    M.run (mkdirPrim p) w = .ok () (addLog w [.mkdirCall p]) := by
  rw [run_mkdirPrim, mkdirFS_noop]
  exact h

/-- A fully provisioned SadTalker cache makes `ensure` a pure no-op: the only
trace entry is the `exist_ok` mkdir of the root, and no file or directory
changes. -/
theorem sadtalker_ensure_ready (env : Env) (r : SadTalkerResources)
    (resolution : Nat) (w : World) (h : sadtalkerReady r w) :
    M.run (r.ensure env resolution) w = .ok () (addLog w [.mkdirCall r.root_dir]) := by
  obtain ⟨h1, h2, h3⟩ := h
  have e1 := mkdirPrim_noop r.root_dir w h1
  unfold SadTalkerResources.ensure
  simp [M.run_bind, M.run_getW, M.run_pure, e1, h2, h3]

/-- A fully provisioned Wav2Lip cache makes `ensure` a pure no-op: the trace
gains only the three `exist_ok` mkdir entries, and no file or directory
changes. -/
theorem wav2lip_ensure_ready (env : Env) (r : Wav2LipResources)
    (w : World) (h : wav2lipReady r w) :
    M.run (r.ensure env) w =
      .ok () (addLog w
        [.mkdirCall r.root_dir, .mkdirCall r.checkpoints_path,
          .mkdirCall (parentPath r.repo_detector)]) := by
  obtain ⟨h1, h2, h3, h4, h5, h6, h7⟩ := h
  have e1 := mkdirPrim_noop r.root_dir w h1
  have e2 := mkdirPrim_noop r.checkpoints_path
    (addLog w [.mkdirCall r.root_dir]) h3
  have e3 := mkdirPrim_noop (parentPath r.repo_detector)
    (addLog w [.mkdirCall r.root_dir, .mkdirCall r.checkpoints_path]) h6
  unfold Wav2LipResources.ensure Wav2LipResources.sync_detector_into_repo
  simp [M.run_bind, M.run_getW, M.run_pure, e1, e2, e3, h2, h4, h5, h7]

/-- C3: for both backends, calling the provisioner's `ensure()` when the
repository and all checkpoints are already present performs no clone,
download, helper-script run, or checkpoint copy — the filesystem is
unchanged and the only trace entries added are the `exist_ok` mkdir
existence checks.  (In particular a second `ensure()` call right after a
successful one that left everything present re-acquires nothing.) -/
theorem ensure_idempotent_no_reacquisition
    (env : Env) (rs : SadTalkerResources) (rw : Wav2LipResources)
    (resolution : Nat) (w : World)
    (hs : sadtalkerReady rs w) (hw : wav2lipReady rw w) :
    ((M.run (rs.ensure env resolution) w).isOk = true ∧
      (M.run (rs.ensure env resolution) w).world.files = w.files ∧
      (M.run (rs.ensure env resolution) w).world.dirs = w.dirs ∧
      acquisitionFree (((M.run (rs.ensure env resolution) w).world.log).drop w.log.length) = true) ∧
    ((M.run (rw.ensure env) w).isOk = true ∧
      (M.run (rw.ensure env) w).world.files = w.files ∧
      (M.run (rw.ensure env) w).world.dirs = w.dirs ∧
      acquisitionFree (((M.run (rw.ensure env) w).world.log).drop w.log.length) = true) := by
  rw [sadtalker_ensure_ready env rs resolution w hs, wav2lip_ensure_ready env rw w hw]
  simp [Res.isOk, Res.world, acquisitionFree, FsAction.isAcquisition]

/-- An environment in which every external acquisition would fail or
produce nothing: used to witness that a ready cache never reaches them. -/
def envNoNet : Env :=
  { cloneOk := false, cloneFiles := [], downloads := [], scriptOk := false,
    scriptFiles := [], inferOk := false, inferFiles := [], ffmpegOk := false,
    ffmpegOut := ⟨"", 0⟩ }

/-- A world in which both default resource bundles are fully provisioned. -/
def readyWorld : World :=
  { dirs :=
      [[], [".cache"], [".cache", "sadtalker"], [".cache", "sadtalker", "repo"],
        [".cache", "wav2lip"], [".cache", "wav2lip", "repo"],
        [".cache", "wav2lip", "checkpoints"],
        [".cache", "wav2lip", "repo", "face_detection"],
        [".cache", "wav2lip", "repo", "face_detection", "detection"],
        [".cache", "wav2lip", "repo", "face_detection", "detection", "sfd"]],
    files :=
      [([".cache", "sadtalker", "repo", "checkpoints", "sadtalker.pth"], ⟨"st", 0⟩),
        ([".cache", "wav2lip", "checkpoints", "wav2lip.pth"], ⟨"w2l", 0⟩),
        ([".cache", "wav2lip", "checkpoints", "s3fd.pth"], ⟨"s3fd", 0⟩),
        ([".cache", "wav2lip", "repo", "face_detection", "detection", "sfd", "s3fd.pth"],
          ⟨"s3fd", 0⟩)],
    log := [] }

theorem ensure_idempotent_no_reacquisition_witness :
    ((M.run (SadTalkerResources.ensure envNoNet {} 512) readyWorld).isOk = true ∧
      (M.run (SadTalkerResources.ensure envNoNet {} 512) readyWorld).world.files = readyWorld.files ∧
      (M.run (SadTalkerResources.ensure envNoNet {} 512) readyWorld).world.dirs = readyWorld.dirs ∧
      acquisitionFree (((M.run (SadTalkerResources.ensure envNoNet {} 512) readyWorld).world.log).drop readyWorld.log.length) = true) ∧
    ((M.run (Wav2LipResources.ensure envNoNet {}) readyWorld).isOk = true ∧
      (M.run (Wav2LipResources.ensure envNoNet {}) readyWorld).world.files = readyWorld.files ∧
      (M.run (Wav2LipResources.ensure envNoNet {}) readyWorld).world.dirs = readyWorld.dirs ∧
      acquisitionFree (((M.run (Wav2LipResources.ensure envNoNet {}) readyWorld).world.log).drop readyWorld.log.length) = true) :=
  ensure_idempotent_no_reacquisition envNoNet {} {} 512 readyWorld (by decide) (by decide)

/-! ## Setup-phase lemmas -/

theorem self_mem_prefixesOf (p : FsPath) : p ∈ prefixesOf p := by
  induction p with
  | nil => simp [prefixesOf]
  | cons x xs ih => simp [prefixesOf, ih]

theorem subset_foldl_insertDir (L : List FsPath) (ds : List FsPath) :
    ∀ q ∈ ds, q ∈ L.foldl insertDir ds := by
  induction L generalizing ds with
  | nil => simp
  | cons x xs ih =>
      intro q hq
      refine ih (insertDir ds x) q ?_
      unfold insertDir
      split <;> simp [hq]

theorem mem_foldl_insertDir (L : List FsPath) (ds : List FsPath) :
    ∀ q ∈ L, q ∈ L.foldl insertDir ds := by
  induction L generalizing ds with
  | nil => simp
  | cons x xs ih =>
      intro q hq
      rcases List.mem_cons.mp hq with h | h
      · subst h
        refine subset_foldl_insertDir xs (insertDir ds q) q ?_
        unfold insertDir
        split <;> simp_all
      · exact ih (insertDir ds x) q h

theorem mem_mkdirFS (p : FsPath) (w : World) : p ∈ (mkdirFS p w).dirs :=
  mem_foldl_insertDir (prefixesOf p) w.dirs p (self_mem_prefixesOf p)

theorem mkdirFS_dirs_mono (p : FsPath) (w : World) :
    ∀ q ∈ w.dirs, q ∈ (mkdirFS p w).dirs :=
  fun q hq => subset_foldl_insertDir (prefixesOf p) w.dirs q hq

theorem run_rmtreePrim (p : FsPath) (w : World) :
    M.run (rmtreePrim p) w = .ok () (rmtreeFS p (addLog w [.rmtreeCall p])) := rfl

/-- `run()` setup always succeeds, returns the derived scratch directory,
and leaves that directory existing. -/
theorem runSetup_ok (p : LipSyncPipeline) (o : FsPath) (w : World) :
    ∃ w', M.run (p.runSetup o) w = .ok (scratchPath p o) w' ∧ scratchPath p o ∈ w'.dirs := by
  simp only [LipSyncPipeline.runSetup, M.run_bind, M.run_getW, M.run_pure, M.run_ite,
    run_mkdirPrim, run_rmtreePrim]
  by_cases hb : (!p.keep_intermediate &&
      pathExistsB (mkdirFS (parentPath o) (addLog w [FsAction.mkdirCall (parentPath o)]))
        (scratchPath p o)) = true
  · rw [if_pos hb]
    exact ⟨_, rfl, mem_mkdirFS _ _⟩
  · rw [if_neg hb]
    exact ⟨_, rfl, mem_mkdirFS _ _⟩

/-! ## C7: unsupported engine -/

/-- C7: an engine selection that is neither supported variant makes `run()`
raise the unsupported-engine error.  The source raises it as a `ValueError`
carrying the engine name — the `ConfigurationError` of the specification
taxonomy — which is distinct from every other exception the module raises
(`FileNotFoundError` for missing artifacts, `CalledProcessError` for failed
subprocesses). -/
theorem run_unsupported_engine_raises (env : Env) (p : LipSyncPipeline)
    (image audio output : FsPath) (w : World)
    (h1 : p.engine ≠ "sadtalker") (h2 : p.engine ≠ "wav2lip") :
    (M.run (p.run env image audio output) w).errOf =
      some (.valueError ("Unsupported engine: " ++ p.engine)) := by
  obtain ⟨w', hs, _⟩ := runSetup_ok p output w
  simp only [LipSyncPipeline.run, M.run_bind, hs, LipSyncPipeline.dispatchEngine]
  simp [h1, h2, M.run_fail, Res.errOf]

theorem run_unsupported_engine_raises_witness :
    (M.run (LipSyncPipeline.run envNoNet { engine := "deepfake" }
      ["img.png"] ["audio.wav"] ["out.mp4"]) ⟨[], [], []⟩).errOf =
      some (.valueError ("Unsupported engine: " ++ "deepfake")) :=
  run_unsupported_engine_raises envNoNet { engine := "deepfake" }
    ["img.png"] ["audio.wav"] ["out.mp4"] ⟨[], [], []⟩ (by decide) (by decide)

/-! ## C9: the upscale stage -/

/-- C9: the upscale stage always invokes the external media tool exactly once
with the fixed argument list — containing the 1920x1080 scaling filter, the
constant-quality setting `-crf 18`, and the audio pass-through `-c:a copy` —
and a non-zero exit raises the stage error (the `CalledProcessError` carrying
the ffmpeg command, the `UpscaleError` of the specification taxonomy) with no
retry: the trace gains the single `ffmpeg` entry whether it succeeds or
fails. -/
theorem upscale_stage_fixed_command (env : Env) (src dst : FsPath) (w : World) :
    (M.run (upscale_to_1080p_stage env src dst) w).world.log
        = w.log ++ [.ffmpeg (ffmpegCommand src dst)] ∧
    "scale=1920:1080:flags=bicubic" ∈ ffmpegCommand src dst ∧
    ["-crf", "18"] <:+: ffmpegCommand src dst ∧
    ["-c:a", "copy"] <:+: ffmpegCommand src dst ∧
    (env.ffmpegOk = false →
      M.run (upscale_to_1080p_stage env src dst) w =
        .err (.calledProcessError (ffmpegCommand src dst))
          (addLog w [.ffmpeg (ffmpegCommand src dst)])) := by
  refine ⟨?_, ?_, ?_, ?_, ?_⟩
  · unfold upscale_to_1080p_stage
    cases hf : env.ffmpegOk <;>
      simp [M.run_bind, run_logA, hf, M.run_fail, M.run_modifyW, Res.world,
        insertFileW, addLog]
  · simp [ffmpegCommand]
  · exact ⟨["ffmpeg", "-y", "-i", renderPath src, "-vf",
      "scale=1920:1080:flags=bicubic", "-c:v", "libx264", "-preset", "medium"],
      ["-c:a", "copy", renderPath dst], by simp [ffmpegCommand]⟩
  · exact ⟨["ffmpeg", "-y", "-i", renderPath src, "-vf",
      "scale=1920:1080:flags=bicubic", "-c:v", "libx264", "-preset", "medium",
      "-crf", "18"], [renderPath dst], by simp [ffmpegCommand]⟩
  · intro hf
    unfold upscale_to_1080p_stage
    simp [M.run_bind, run_logA, hf, M.run_fail]

theorem upscale_stage_fixed_command_witness :
    (M.run (upscale_to_1080p_stage envNoNet ["tmp", "raw.mp4"] ["out.mp4"]) ⟨[], [], []⟩).world.log
        = ([] : List FsAction) ++ [.ffmpeg (ffmpegCommand ["tmp", "raw.mp4"] ["out.mp4"])] ∧
    M.run (upscale_to_1080p_stage envNoNet ["tmp", "raw.mp4"] ["out.mp4"]) ⟨[], [], []⟩ =
      .err (.calledProcessError (ffmpegCommand ["tmp", "raw.mp4"] ["out.mp4"]))
        (addLog ⟨[], [], []⟩ [.ffmpeg (ffmpegCommand ["tmp", "raw.mp4"] ["out.mp4"])]) :=
  ⟨(upscale_stage_fixed_command envNoNet ["tmp", "raw.mp4"] ["out.mp4"] ⟨[], [], []⟩).1,
    (upscale_stage_fixed_command envNoNet ["tmp", "raw.mp4"] ["out.mp4"] ⟨[], [], []⟩).2.2.2.2
      (by decide)⟩

/-! ## C10: falsy numeric knobs are silently treated as unset -/

/-- C10: in the Wav2Lip command builder, a batch size of `0` behaves exactly
like `None` (no batch-size flag), and a resize factor of `0` behaves exactly
like `1.0` (no resize flag, the field default) — the subprocess is left with
its own defaults.  The closed conjuncts exhibit the flag really being absent
from a fully concrete command line. -/
theorem wav2lip_falsy_knobs_omit_flags (res : Wav2LipResources)
    (st : Wav2LipSettings) (fps : Nat) (image audio output_file : FsPath) :
    (wav2lipCommand res { st with wav2lip_batch_size := some 0 } fps image audio output_file =
      wav2lipCommand res { st with wav2lip_batch_size := none } fps image audio output_file) ∧
    (wav2lipCommand res { st with face_det_batch_size := some 0 } fps image audio output_file =
      wav2lipCommand res { st with face_det_batch_size := none } fps image audio output_file) ∧
    (wav2lipCommand res { st with resize_factor := ⟨0, 0⟩ } fps image audio output_file =
      wav2lipCommand res { st with resize_factor := ⟨1, 0⟩ } fps image audio output_file) ∧
    "--wav2lip_batch_size" ∉
      wav2lipCommand {} { wav2lip_batch_size := some 0 } 25 ["i.png"] ["a.wav"] ["d", "result.mp4"] ∧
    "--face_det_batch_size" ∉
      wav2lipCommand {} { face_det_batch_size := some 0 } 25 ["i.png"] ["a.wav"] ["d", "result.mp4"] ∧
    "--resize_factor" ∉
      wav2lipCommand {} { resize_factor := ⟨0, 0⟩ } 25 ["i.png"] ["a.wav"] ["d", "result.mp4"] ∧
    "--resize_factor" ∉
      wav2lipCommand {} { resize_factor := ⟨1, 0⟩ } 25 ["i.png"] ["a.wav"] ["d", "result.mp4"] := by
  refine ⟨?_, ?_, ?_, by decide, by decide, by decide, by decide⟩ <;>
    simp [wav2lipCommand, truthyOptInt, PyFloat.truthy, PyFloat.eqB]

/-! ## C8: crop rectangle and resize factor reach the command line -/

theorem seg_suffix_of_append (l X : List String) : l <:+: X ++ l :=
  ⟨X, [], by simp⟩

theorem seg_middle_of_append (l X Y : List String) : l <:+: (X ++ l) ++ Y :=
  ⟨X, Y, by simp⟩

/-- When the resize factor is truthy and not `1.0` and the crop is truthy,
the built command ends with the resize flag followed by the crop flag. -/
theorem wav2lipCommand_tail_shape (res : Wav2LipResources) (st : Wav2LipSettings)
    (fps : Nat) (image audio output_file : FsPath)
    (hrf : (PyFloat.truthy st.resize_factor && !(PyFloat.eqB st.resize_factor ⟨1, 0⟩)) = true)
    (hcrop : truthyOptList st.crop = true) :
    ∃ Z, wav2lipCommand res st fps image audio output_file =
      (Z ++ ["--resize_factor", pyFloatStr st.resize_factor]) ++
        "--crop" :: (st.crop.getD []).map intToStr := by
  simp only [wav2lipCommand, hrf, hcrop, if_true]
  exact ⟨_, rfl⟩

/-- C8: configuring the Wav2Lip backend with crop rectangle `(0,0,100,100)`
and resize factor `0.5` puts both `--crop 0 0 100 100` and
`--resize_factor 0.5` into the argument list built for the inference
subprocess, whatever the remaining settings and paths are. -/
theorem wav2lip_crop_resize_in_command (res : Wav2LipResources)
    (st : Wav2LipSettings) (fps : Nat) (image audio output_file : FsPath) :
    ["--crop", "0", "0", "100", "100"] <:+:
      wav2lipCommand res { st with crop := some [0, 0, 100, 100], resize_factor := ⟨5, 1⟩ }
        fps image audio output_file ∧
    ["--resize_factor", "0.5"] <:+:
      wav2lipCommand res { st with crop := some [0, 0, 100, 100], resize_factor := ⟨5, 1⟩ }
        fps image audio output_file := by
  obtain ⟨Z, hZ⟩ := wav2lipCommand_tail_shape res
    { st with crop := some [0, 0, 100, 100], resize_factor := ⟨5, 1⟩ }
    fps image audio output_file (by simp [PyFloat.truthy, PyFloat.eqB])
    (by simp [truthyOptList])
  rw [hZ]
  constructor
  · exact seg_suffix_of_append _ _
  · have hr : pyFloatStr ⟨5, 1⟩ = "0.5" := by decide
    simp only [hr]
    exact seg_middle_of_append _ _ _

/-! ## C2: output selection is lexicographic, not most-recent -/

theorem charsLe_refl (a : List Char) : charsLe a a = true := by
  induction a with
  | nil => rfl
  | cons x xs ih => simp [charsLe, ih]

theorem charsLe_total (a b : List Char) : charsLe a b = true ∨ charsLe b a = true := by
  induction a generalizing b with
  | nil => left; rfl
  | cons x xs ih =>
      cases b with
      | nil => right; rfl
      | cons y ys =>
          by_cases hxy : x = y
          · subst hxy
            simpa [charsLe] using ih ys
          · rcases lt_trichotomy x y with h | h | h
            · left; simp [charsLe, hxy, h]
            · exact absurd h hxy
            · right
              simp [charsLe, Ne.symm hxy, not_lt.mpr (le_of_lt h), h]

theorem charsLe_trans (a b c : List Char)
    (hab : charsLe a b = true) (hbc : charsLe b c = true) : charsLe a c = true := by
  induction a generalizing b c with
  | nil => rfl
  | cons x xs ih =>
      cases b with
      | nil => simp [charsLe] at hab
      | cons y ys =>
          cases c with
          | nil => simp [charsLe] at hbc
          | cons z zs =>
              simp only [charsLe] at hab hbc ⊢
              by_cases hxy : x = y <;> by_cases hyz : y = z
              · subst hxy; subst hyz
                simp_all
                exact ih ys zs hab hbc
              · subst hxy
                simp_all
              · subst hyz
                simp_all
              · simp only [hxy, if_false, hyz] at hab hbc
                have hxz : x < z := lt_trans (by simpa using hab) (by simpa using hbc)
                simp [ne_of_lt hxz, hxz]

theorem strLeB_refl (a : String) : strLeB a a = true := charsLe_refl a.data

theorem strLeB_total (a b : String) : strLeB a b = true ∨ strLeB b a = true :=
  charsLe_total a.data b.data

theorem strLeB_trans (a b c : String)
    (hab : strLeB a b = true) (hbc : strLeB b c = true) : strLeB a c = true :=
  charsLe_trans a.data b.data c.data hab hbc

theorem mem_insertLe (x y : String) (l : List String) :
    y ∈ insertLe x l ↔ y = x ∨ y ∈ l := by
  induction l with
  | nil => simp [insertLe]
  | cons z zs ih =>
      unfold insertLe
      split
      · simp
      · simp only [List.mem_cons, ih]
        tauto

/-- Insertion sort keeps the ordering property. -/
theorem pairwise_insertLe (x : String) (l : List String)
    (h : l.Pairwise (fun a b => strLeB a b = true)) :
    (insertLe x l).Pairwise (fun a b => strLeB a b = true) := by
  induction l with
  | nil => simp [insertLe]
  | cons y ys ih =>
      rcases List.pairwise_cons.mp h with ⟨hy, hys⟩
      unfold insertLe
      split
      · rename_i hxy
        refine List.pairwise_cons.mpr ⟨?_, h⟩
        intro z hz
        rcases List.mem_cons.mp hz with rfl | hz
        · exact hxy
        · exact strLeB_trans x y z hxy (hy z hz)
      · rename_i hxy
        have hyx : strLeB y x = true := by
          rcases strLeB_total x y with h' | h'
          · exact absurd h' hxy
          · exact h'
        refine List.pairwise_cons.mpr ⟨?_, ih hys⟩
        intro z hz
        rcases (mem_insertLe x z ys).mp hz with rfl | hz
        · exact hyx
        · exact hy z hz

theorem pairwise_sortStrings (l : List String) :
    (sortStrings l).Pairwise (fun a b => strLeB a b = true) := by
  induction l with
  | nil => simp [sortStrings]
  | cons x xs ih => exact pairwise_insertLe x (sortStrings xs) ih

/-- The head of the sorted glob is a lower bound of all candidates. -/
theorem globMp4_head_min (fs : List (FsPath × FileData)) (d : FsPath)
    (c : String) (rest : List String) (h : globMp4 fs d = c :: rest) :
    ∀ x ∈ globMp4 fs d, strLeB c x = true := by
  intro x hx
  rw [h] at hx
  rcases List.mem_cons.mp hx with rfl | hx
  · exact strLeB_refl x
  · have hp : (globMp4 fs d).Pairwise (fun a b => strLeB a b = true) :=
      pairwise_sortStrings _
    rw [h] at hp
    exact (List.pairwise_cons.mp hp).1 x hx

/-- C2 (amended): `_select_generated_video` returns the lexicographically
first `.mp4` of the destination directory — its choice ignores modification
times entirely — and logs the ambiguity warning exactly when more than one
candidate exists. -/
theorem select_generated_video_lexicographic (w : World) (d : FsPath)
    (c : String) (rest : List String) (h : globMp4 w.files d = c :: rest) :
    M.run (select_generated_video d) w =
      .ok (d ++ [c])
        (if rest.isEmpty then w
          else addLog w
            [.warn ("Multiple outputs detected; selecting " ++ renderPath (d ++ [c]))]) ∧
    (∀ x ∈ globMp4 w.files d, strLeB c x = true) := by
  refine ⟨?_, globMp4_head_min w.files d c rest h⟩
  simp only [select_generated_video, M.run_bind, M.run_getW, h]
  cases rest with
  | nil => simp [M.run_bind, M.run_pure]
  | cons r rs => simp [M.run_bind, run_logA, M.run_pure]

theorem select_generated_video_lexicographic_witness :
    (M.run (select_generated_video ["d"])
        ⟨[["d"]], [(["d", "b.mp4"], ⟨"B", 10⟩), (["d", "a.mp4"], ⟨"A", 5⟩)], []⟩ =
      .ok (["d"] ++ ["a.mp4"])
        (if ["b.mp4"].isEmpty then
          ⟨[["d"]], [(["d", "b.mp4"], ⟨"B", 10⟩), (["d", "a.mp4"], ⟨"A", 5⟩)], []⟩
        else addLog ⟨[["d"]], [(["d", "b.mp4"], ⟨"B", 10⟩), (["d", "a.mp4"], ⟨"A", 5⟩)], []⟩
          [.warn ("Multiple outputs detected; selecting " ++ renderPath (["d"] ++ ["a.mp4"]))])) ∧
    (∀ x ∈ globMp4 [(["d", "b.mp4"], ⟨"B", 10⟩), (["d", "a.mp4"], ⟨"A", 5⟩)] ["d"],
      strLeB "a.mp4" x = true) :=
  select_generated_video_lexicographic
    ⟨[["d"]], [(["d", "b.mp4"], ⟨"B", 10⟩), (["d", "a.mp4"], ⟨"A", 5⟩)], []⟩
    ["d"] "a.mp4" ["b.mp4"] (by decide)

/-- C2 (counterexample to the claim as stated): with two candidates where
`b.mp4` was written after `a.mp4`, the invoker still returns `a.mp4` — the
selection is not "the most recently written matching video file". -/
theorem select_generated_video_not_most_recent :
    (M.run (select_generated_video ["d"])
        ⟨[["d"]], [(["d", "b.mp4"], ⟨"B", 10⟩), (["d", "a.mp4"], ⟨"A", 5⟩)], []⟩).valOf =
      some ["d", "a.mp4"] ∧
    "b.mp4" ∈ globMp4 [(["d", "b.mp4"], ⟨"B", 10⟩), (["d", "a.mp4"], ⟨"A", 5⟩)] ["d"] ∧
    (lookupFile ⟨[["d"]], [(["d", "b.mp4"], ⟨"B", 10⟩), (["d", "a.mp4"], ⟨"A", 5⟩)], []⟩
        ["d", "a.mp4"]).map FileData.mtime = some 5 ∧
    (lookupFile ⟨[["d"]], [(["d", "b.mp4"], ⟨"B", 10⟩), (["d", "a.mp4"], ⟨"A", 5⟩)], []⟩
        ["d", "b.mp4"]).map FileData.mtime = some 10 ∧
    (5 : Nat) < 10 := by
  decide

/-! ## C5: missing output after a successful inference run -/

@[simp] theorem insertFilesW_files (n : List (FsPath × FileData)) (w : World) :
    (insertFilesW n w).files = insertFilesL n w.files := rfl

@[simp] theorem insertFilesW_dirs (n : List (FsPath × FileData)) (w : World) :
    (insertFilesW n w).dirs = w.dirs := rfl

@[simp] theorem insertFilesW_log (n : List (FsPath × FileData)) (w : World) :
    (insertFilesW n w).log = w.log := rfl

theorem run_inferProcPrim_ok (env : Env) (cmd : List String) (w : World)
    (h : env.inferOk = true) :
    M.run (inferProcPrim env cmd) w =
      .ok () (insertFilesW env.inferFiles (addLog w [.inferProc cmd])) := by
  unfold inferProcPrim
  simp [M.run_bind, run_logA, h, M.run_modifyW]

theorem mem_insertFileL (p : FsPath) (d : FileData) (fs : List (FsPath × FileData))
    (x : FsPath × FileData) (hx : x ∈ insertFileL p d fs) : x = (p, d) ∨ x ∈ fs := by
  unfold insertFileL at hx
  rcases List.mem_cons.mp hx with h | h
  · exact Or.inl h
  · exact Or.inr (List.mem_of_mem_filter h)

theorem mem_insertFilesL (new fs : List (FsPath × FileData))
    (x : FsPath × FileData) (hx : x ∈ insertFilesL new fs) : x ∈ new ∨ x ∈ fs := by
  induction new generalizing fs with
  | nil => exact Or.inr hx
  | cons n ns ih =>
      rcases ih (insertFileL n.1 n.2 fs) hx with h | h
      · exact Or.inl (List.mem_cons_of_mem n h)
      · rcases mem_insertFileL n.1 n.2 fs x h with h' | h'
        · left
          rw [h']
          simp
        · exact Or.inr h'

theorem pathExistsB_insertFilesW_of_absent (w : World) (new : List (FsPath × FileData))
    (p : FsPath) (h1 : pathExistsB w p = false) (h2 : ∀ f ∈ new, ¬ f.1 = p) :
    pathExistsB (insertFilesW new w) p = false := by
  simp only [pathExistsB, insertFilesW_dirs, insertFilesW_files, Bool.or_eq_false_iff,
    List.any_eq_false] at h1 ⊢
  refine ⟨h1.1, ?_⟩
  intro x hx
  rcases mem_insertFilesL new w.files x hx with h | h
  · simpa using h2 x h
  · simpa using h1.2 x h

/-- C5: for both backend invokers, a child inference process that exits
successfully but leaves no matching output file in the destination directory
makes the invoker raise.  In the source the error is a `FileNotFoundError`
carrying the missing path or directory — the `MissingOutputError` of the
specification taxonomy — distinct from the `CalledProcessError` a failed
subprocess raises. -/
theorem missing_output_raises (env : Env) (p : LipSyncPipeline)
    (image audio dest : FsPath) (w : World)
    (hsr : sadtalkerReady p.sadtalker_resources w)
    (hwr : wav2lipReady p.wav2lip_resources w)
    (hok : env.inferOk = true)
    (hglob : globMp4 (insertFilesL env.inferFiles w.files) dest = [])
    (hout0 : pathExistsB w (dest ++ ["result.mp4"]) = false)
    (houtn : ∀ f ∈ env.inferFiles, ¬ f.1 = dest ++ ["result.mp4"]) :
    (M.run (p.run_sadtalker env image audio dest) w).errOf =
      some (.fileNotFound
        ("No outputs found in " ++ renderPath dest ++ ". Expected an mp4 file.")) ∧
    (M.run (p.run_wav2lip env image audio dest) w).errOf =
      some (.fileNotFound
        ("Expected Wav2Lip output at " ++ renderPath (dest ++ ["result.mp4"]) ++
          ", but the file was not created.")) := by
  constructor
  · simp only [LipSyncPipeline.run_sadtalker, M.run_bind,
      sadtalker_ensure_ready env _ p.resolution w hsr, run_inferProcPrim_ok env _ _ hok,
      select_generated_video, M.run_getW]
    simp [hglob, M.run_fail, Res.errOf]
  · have habs : pathExistsB
        (insertFilesW env.inferFiles
          (addLog w [.mkdirCall p.wav2lip_resources.root_dir,
            .mkdirCall p.wav2lip_resources.checkpoints_path,
            .mkdirCall (parentPath p.wav2lip_resources.repo_detector),
            .inferProc (wav2lipCommand p.wav2lip_resources p.wav2lip_settings p.fps
              image audio (dest ++ ["result.mp4"]))]))
        (dest ++ ["result.mp4"]) = false := by
      refine pathExistsB_insertFilesW_of_absent _ _ _ ?_ houtn
      simpa using hout0
    simp only [LipSyncPipeline.run_wav2lip, M.run_bind,
      wav2lip_ensure_ready env _ w hwr, run_inferProcPrim_ok env _ _ hok, M.run_getW]
    simp [habs, M.run_fail, Res.errOf]

theorem missing_output_raises_witness :
    (M.run (LipSyncPipeline.run_sadtalker
        { envNoNet with inferOk := true } { engine := "sadtalker" }
        ["img.png"] ["audio.wav"] ["scratch"]) readyWorld).errOf =
      some (.fileNotFound
        ("No outputs found in " ++ renderPath ["scratch"] ++ ". Expected an mp4 file.")) ∧
    (M.run (LipSyncPipeline.run_wav2lip
        { envNoNet with inferOk := true } { engine := "wav2lip" }
        ["img.png"] ["audio.wav"] ["scratch"]) readyWorld).errOf =
      some (.fileNotFound
        ("Expected Wav2Lip output at " ++ renderPath (["scratch"] ++ ["result.mp4"]) ++
          ", but the file was not created.")) := by
  have h1 := missing_output_raises { envNoNet with inferOk := true } { engine := "sadtalker" }
    ["img.png"] ["audio.wav"] ["scratch"] readyWorld
    (by decide) (by decide) (by decide) (by decide) (by decide) (by decide)
  have h2 := missing_output_raises { envNoNet with inferOk := true } { engine := "wav2lip" }
    ["img.png"] ["audio.wav"] ["scratch"] readyWorld
    (by decide) (by decide) (by decide) (by decide) (by decide) (by decide)
  exact ⟨h1.1, h2.2⟩

/-! ## C4: failures leave the scratch directory and propagate unchanged -/

/-- A computation that never removes a directory (everything the pipeline
runs between scratch-directory creation and the success-path cleanup). -/
def preservesDirs (x : M α) : Prop :=
  ∀ w : World, ∀ d ∈ w.dirs, d ∈ (M.run x w).world.dirs

theorem pd_pure (a : α) : preservesDirs (pure a : M α) := fun _ _ hd => hd

theorem pd_fail (e : PyErr) : preservesDirs (M.fail e : M α) := fun _ _ hd => hd

theorem pd_getW : preservesDirs M.getW := fun _ _ hd => hd

theorem pd_modifyW (f : World → World)
    (hf : ∀ w : World, ∀ d ∈ w.dirs, d ∈ (f w).dirs) : preservesDirs (M.modifyW f) :=
  fun w d hd => hf w d hd

theorem pd_bind {x : M α} {f : α → M β}
    (hx : preservesDirs x) (hf : ∀ a, preservesDirs (f a)) :
    preservesDirs (x >>= f) := by
  intro w d hd
  rw [M.run_bind]
  cases hxw : M.run x w with
  | ok a w' =>
      refine hf a w' d ?_
      have := hx w d hd
      rwa [hxw] at this
  | err e w' =>
      have := hx w d hd
      rwa [hxw] at this

theorem pd_ite {c : Prop} [Decidable c] {x y : M α}
    (hx : preservesDirs x) (hy : preservesDirs y) :
    preservesDirs (if c then x else y) := by
  by_cases h : c <;> simp [h, hx, hy]

theorem pd_logA (a : FsAction) : preservesDirs (logA a) :=
  pd_modifyW _ (fun _ _ hd => hd)

theorem pd_mkdirPrim (p : FsPath) : preservesDirs (mkdirPrim p) :=
  pd_bind (pd_logA _) (fun _ => pd_modifyW _ (mkdirFS_dirs_mono p))

theorem pd_gitClonePrim (env : Env) (url : String) (dest : FsPath) :
    preservesDirs (gitClonePrim env url dest) := by
  refine pd_bind (pd_logA _) (fun _ => ?_)
  refine pd_ite (pd_modifyW _ ?_) (pd_fail _)
  intro w d hd
  exact mkdirFS_dirs_mono dest w d hd

theorem pd_gdownPrim (env : Env) (url : String) (dest : FsPath) :
    preservesDirs (gdownPrim env url dest) := by
  refine pd_bind (pd_logA _) (fun _ => ?_)
  cases env.downloads.lookup url with
  | some d => exact pd_modifyW _ (fun _ _ hd => hd)
  | none => exact pd_pure _

theorem pd_copy2Prim (src dst : FsPath) : preservesDirs (copy2Prim src dst) := by
  refine pd_bind pd_getW (fun w => ?_)
  cases lookupFile w src with
  | some d => exact pd_bind (pd_logA _) (fun _ => pd_modifyW _ (fun _ _ hd => hd))
  | none => exact pd_fail _

theorem pd_moveFilePrim (src dst : FsPath) : preservesDirs (moveFilePrim src dst) := by
  refine pd_bind pd_getW (fun w => ?_)
  cases lookupFile w src with
  | some d => exact pd_bind (pd_logA _) (fun _ => pd_modifyW _ (fun _ _ hd => hd))
  | none => exact pd_fail _

theorem pd_inferProcPrim (env : Env) (cmd : List String) :
    preservesDirs (inferProcPrim env cmd) :=
  pd_bind (pd_logA _) (fun _ => pd_ite (pd_modifyW _ (fun _ _ hd => hd)) (pd_fail _))

theorem pd_download_checkpoints (env : Env) (r : SadTalkerResources) (n : Nat) :
    preservesDirs (r.download_checkpoints env n) := by
  refine pd_bind pd_getW (fun w => ?_)
  refine pd_ite ?_ (pd_fail _)
  exact pd_bind (pd_logA _) (fun _ => pd_ite (pd_modifyW _ (fun _ _ hd => hd)) (pd_fail _))

theorem pd_sadtalker_ensure (env : Env) (r : SadTalkerResources) (n : Nat) :
    preservesDirs (r.ensure env n) := by
  refine pd_bind (pd_mkdirPrim _) (fun _ => ?_)
  refine pd_bind pd_getW (fun w => ?_)
  refine pd_bind (pd_ite (pd_pure _) (pd_gitClonePrim env _ _)) (fun _ => ?_)
  refine pd_bind pd_getW (fun w' => ?_)
  exact pd_ite (pd_pure _) (pd_download_checkpoints env r n)

theorem pd_sync_detector (r : Wav2LipResources) :
    preservesDirs r.sync_detector_into_repo := by
  refine pd_bind (pd_mkdirPrim _) (fun _ => ?_)
  refine pd_bind pd_getW (fun w => ?_)
  exact pd_ite (pd_pure _) (pd_copy2Prim _ _)

theorem pd_wav2lip_ensure (env : Env) (r : Wav2LipResources) :
    preservesDirs (r.ensure env) := by
  refine pd_bind (pd_mkdirPrim _) (fun _ => ?_)
  refine pd_bind pd_getW (fun w => ?_)
  refine pd_bind (pd_ite (pd_pure _) (pd_gitClonePrim env _ _)) (fun _ => ?_)
  refine pd_bind (pd_mkdirPrim _) (fun _ => ?_)
  refine pd_bind pd_getW (fun w1 => ?_)
  refine pd_bind (pd_ite (pd_pure _) (pd_gdownPrim env _ _)) (fun _ => ?_)
  refine pd_bind pd_getW (fun w2 => ?_)
  refine pd_bind (pd_ite (pd_pure _) (pd_gdownPrim env _ _)) (fun _ => ?_)
  exact pd_sync_detector r

theorem pd_select (directory : FsPath) : preservesDirs (select_generated_video directory) := by
  refine pd_bind pd_getW (fun w => ?_)
  cases globMp4 w.files directory with
  | nil => exact pd_fail _
  | cons c rest =>
      exact pd_bind (pd_ite (pd_pure _) (pd_logA _)) (fun _ => pd_pure _)

theorem pd_run_sadtalker (env : Env) (p : LipSyncPipeline) (i a d : FsPath) :
    preservesDirs (p.run_sadtalker env i a d) :=
  pd_bind (pd_sadtalker_ensure env _ _)
    (fun _ => pd_bind (pd_inferProcPrim env _) (fun _ => pd_select d))

theorem pd_run_wav2lip (env : Env) (p : LipSyncPipeline) (i a d : FsPath) :
    preservesDirs (p.run_wav2lip env i a d) := by
  refine pd_bind (pd_wav2lip_ensure env _) (fun _ => ?_)
  refine pd_bind (pd_inferProcPrim env _) (fun _ => ?_)
  refine pd_bind pd_getW (fun w => ?_)
  exact pd_ite (pd_pure _) (pd_fail _)

theorem pd_dispatchEngine (env : Env) (p : LipSyncPipeline) (i a td : FsPath) :
    preservesDirs (p.dispatchEngine env i a td) := by
  unfold LipSyncPipeline.dispatchEngine
  exact pd_ite (pd_run_sadtalker env p i a td)
    (pd_ite (pd_run_wav2lip env p i a td) (pd_fail _))

theorem pd_upscale (env : Env) (src dst : FsPath) :
    preservesDirs (upscale_to_1080p_stage env src dst) :=
  pd_bind (pd_logA _) (fun _ => pd_ite (pd_modifyW _ (fun _ _ hd => hd)) (pd_fail _))

/-- A `finalize` failure is a failure of its first step (upscale or move):
the success-path cleanup never raises. -/
theorem finalize_err_cases (env : Env) (p : LipSyncPipeline)
    (tp o td : FsPath) (w : World) (e : PyErr) (w' : World)
    (h : M.run (p.finalize env tp o td) w = .err e w') :
    M.run (if p.upscale_to_1080p then upscale_to_1080p_stage env tp o
      else moveFilePrim tp o) w = .err e w' := by
  unfold LipSyncPipeline.finalize at h
  rw [M.run_bind] at h
  cases h1 : M.run (if p.upscale_to_1080p then upscale_to_1080p_stage env tp o
      else moveFilePrim tp o) w with
  | ok a w1 =>
      rw [h1] at h
      by_cases hk : p.keep_intermediate <;>
        simp [M.run_bind, run_rmtreePrim, M.run_pure, hk] at h
  | err e1 w1 =>
      rw [h1] at h
      simp only [] at h
      cases h
      rfl

/-- C4: (1) whenever `run()` raises — in provisioning, inference, or the
upscale/move step, and for every value of `keep_intermediate` — the scratch
directory is still on disk in the state at the raise; (2)/(3) the exception
propagates to the caller unchanged (same exception, same state, no wrapping
or suppression), whether the dispatch phase or the finalize phase raised.
Scratch removal therefore happens only on the fully successful path. -/
theorem run_failure_preserves_scratch (env : Env) (p : LipSyncPipeline)
    (image audio output : FsPath) (w : World) :
    ((M.run (p.run env image audio output) w).isErr = true →
      scratchPath p output ∈ (M.run (p.run env image audio output) w).world.dirs) ∧
    (∀ td w₀ e w₁, M.run (p.runSetup output) w = .ok td w₀ →
      M.run (p.dispatchEngine env image audio td) w₀ = .err e w₁ →
      M.run (p.run env image audio output) w = .err e w₁) ∧
    (∀ td w₀ tp w₁ e w₂, M.run (p.runSetup output) w = .ok td w₀ →
      M.run (p.dispatchEngine env image audio td) w₀ = .ok tp w₁ →
      M.run (p.finalize env tp output td) w₁ = .err e w₂ →
      M.run (p.run env image audio output) w = .err e w₂) := by
  obtain ⟨w₀, hs, hmem⟩ := runSetup_ok p output w
  refine ⟨?_, ?_, ?_⟩
  · intro herr
    unfold LipSyncPipeline.run at herr ⊢
    rw [M.run_bind, hs] at herr ⊢
    simp only [] at herr ⊢
    rw [M.run_bind] at herr ⊢
    cases hd : M.run (p.dispatchEngine env image audio (scratchPath p output)) w₀ with
    | err e w₁ =>
        simp only [Res.world]
        have := pd_dispatchEngine env p image audio (scratchPath p output) w₀
          (scratchPath p output) hmem
        rw [hd] at this
        simpa [Res.world] using this
    | ok tp w₁ =>
        rw [hd] at herr
        simp only [] at herr ⊢
        have hm1 : scratchPath p output ∈ w₁.dirs := by
          have := pd_dispatchEngine env p image audio (scratchPath p output) w₀
            (scratchPath p output) hmem
          rw [hd] at this
          simpa [Res.world] using this
        cases hf : M.run (p.finalize env tp output (scratchPath p output)) w₁ with
        | ok o w₂ =>
            rw [hf] at herr
            simp [Res.isErr] at herr
        | err e w₂ =>
            simp only [Res.world]
            have hstep := finalize_err_cases env p tp output (scratchPath p output) w₁ e w₂ hf
            have := pd_ite (c := p.upscale_to_1080p = true)
              (pd_upscale env tp output) (pd_moveFilePrim tp output) w₁
              (scratchPath p output) hm1
            rw [hstep] at this
            simpa [Res.world] using this
  · intro td w₀' e w₁ h1 h2
    unfold LipSyncPipeline.run
    rw [M.run_bind, h1]
    simp only []
    rw [M.run_bind, h2]
  · intro td w₀' tp w₁ e w₂ h1 h2 h3
    unfold LipSyncPipeline.run
    rw [M.run_bind, h1]
    simp only []
    rw [M.run_bind, h2]
    simp only []
    exact h3

/-- The pipeline configuration of the C4 failure scenarios. -/
def p4 : LipSyncPipeline := { engine := "wav2lip" }

/-- An environment whose inference succeeds (producing the raw video in the
scratch directory) but whose ffmpeg invocation fails. -/
def envInferOkFfmpegFail : Env :=
  { cloneOk := false, cloneFiles := [], downloads := [], scriptOk := false,
    scriptFiles := [], inferOk := true,
    inferFiles := [(["out_wav2lip", "result.mp4"], ⟨"vid", 3⟩)],
    ffmpegOk := false, ffmpegOut := ⟨"", 0⟩ }

def setup4 : Res FsPath := M.run (p4.runSetup ["out.mp4"]) ⟨[], [], []⟩

def disp4 : Res FsPath :=
  M.run (p4.dispatchEngine envNoNet ["i.png"] ["a.wav"] (scratchPath p4 ["out.mp4"]))
    setup4.world

def setup4b : Res FsPath := M.run (p4.runSetup ["out.mp4"]) readyWorld

def disp4b : Res FsPath :=
  M.run (p4.dispatchEngine envInferOkFfmpegFail ["i.png"] ["a.wav"]
    (scratchPath p4 ["out.mp4"])) setup4b.world

def fin4b : Res FsPath :=
  M.run (p4.finalize envInferOkFfmpegFail (disp4b.valOf.getD []) ["out.mp4"]
    (scratchPath p4 ["out.mp4"])) disp4b.world

theorem run_failure_preserves_scratch_witness :
    scratchPath p4 ["out.mp4"] ∈
      (M.run (p4.run envNoNet ["i.png"] ["a.wav"] ["out.mp4"]) ⟨[], [], []⟩).world.dirs ∧
    M.run (p4.run envNoNet ["i.png"] ["a.wav"] ["out.mp4"]) ⟨[], [], []⟩ =
      .err (disp4.errOf.getD (.valueError "")) disp4.world ∧
    M.run (p4.run envInferOkFfmpegFail ["i.png"] ["a.wav"] ["out.mp4"]) readyWorld =
      .err (fin4b.errOf.getD (.valueError "")) fin4b.world :=
  ⟨(run_failure_preserves_scratch envNoNet p4 ["i.png"] ["a.wav"] ["out.mp4"]
      ⟨[], [], []⟩).1 (by decide),
    (run_failure_preserves_scratch envNoNet p4 ["i.png"] ["a.wav"] ["out.mp4"]
      ⟨[], [], []⟩).2.1 (scratchPath p4 ["out.mp4"]) setup4.world
      (disp4.errOf.getD (.valueError "")) disp4.world (by decide) (by decide),
    (run_failure_preserves_scratch envInferOkFfmpegFail p4 ["i.png"] ["a.wav"] ["out.mp4"]
      readyWorld).2.2 (scratchPath p4 ["out.mp4"]) setup4b.world
      (disp4b.valOf.getD []) disp4b.world
      (fin4b.errOf.getD (.valueError "")) fin4b.world (by decide) (by decide) (by decide)⟩

/-! ## C6: with upscaling disabled the output is the moved raw file -/

theorem splitLastDot_spec (cs : List Char) :
    ∀ st ex, splitLastDot cs = some (st, ex) → cs = st ++ '.' :: ex := by
  induction cs with
  | nil => intro st ex h; simp [splitLastDot] at h
  | cons c cs ih =>
      intro st ex h
      unfold splitLastDot at h
      cases hs : splitLastDot cs with
      | some p =>
          obtain ⟨st', ex'⟩ := p
          rw [hs] at h
          simp only [Option.some.injEq, Prod.mk.injEq] at h
          obtain ⟨h1, h2⟩ := h
          rw [← h1, ← h2]
          simpa using congrArg (c :: ·) (ih st' ex' hs)
      | none =>
          rw [hs] at h
          by_cases hc : c = '.'
          · rw [if_pos hc] at h
            simp only [Option.some.injEq, Prod.mk.injEq] at h
            obtain ⟨h1, h2⟩ := h
            rw [← h1, ← h2, hc]
            rfl
          · rw [if_neg hc] at h
            exact absurd h (by simp)

theorem stemChars_spec (cs : List Char) :
    stemChars cs = cs ∨ ∃ ex, cs = stemChars cs ++ '.' :: ex := by
  cases h : splitLastDot cs with
  | none =>
      left
      simp [stemChars, h]
  | some p =>
      obtain ⟨st, ex⟩ := p
      by_cases he : st = [] ∨ ex = []
      · left
        simp [stemChars, h, he]
      · right
        have hstem : stemChars cs = st := by simp [stemChars, h, he]
        rw [hstem]
        exact ⟨ex, splitLastDot_spec cs st ex h⟩

theorem stem_ne_append (n e : List Char) : n ≠ stemChars n ++ '_' :: e := by
  intro hcontra
  rcases stemChars_spec n with h | ⟨ex, h⟩
  · rw [h] at hcontra
    have := congrArg List.length hcontra
    simp at this
  · have hcomb : stemChars n ++ '.' :: ex = stemChars n ++ '_' :: e := h.symm.trans hcontra
    have := List.append_cancel_left hcomb
    simp at this

/-- The scratch-directory name can never equal an output file name: no name
equals its own stem plus an underscore and the engine tag. -/
theorem scratchName_ne_name (b e : String) : pathStemStr b ++ "_" ++ e ≠ b := by
  intro h
  have hd := congrArg String.data h
  rw [String.data_append, String.data_append] at hd
  have hu : ("_" : String).data = ['_'] := rfl
  have hp : (pathStemStr b).data = stemChars b.data := rfl
  rw [hu, hp] at hd
  have h4 : stemChars b.data ++ '_' :: e.data = stemChars b.data ++ ['_'] ++ e.data := by
    simp
  exact stem_ne_append b.data e.data (hd.symm.trans h4.symm)

/-- The scratch directory is never a path prefix of the output path, so the
success-path cleanup cannot touch the final output file. -/
theorem scratch_not_prefix_output (p : LipSyncPipeline) (o : FsPath) :
    (scratchPath p o).isPrefixOf o = false := by
  rcases List.eq_nil_or_concat o with rfl | ⟨L, b, rfl⟩
  · rfl
  · simp only [List.concat_eq_append]
    by_contra hb
    have htrue : (scratchPath p (L ++ [b])).isPrefixOf (L ++ [b]) = true := by
      cases h : (scratchPath p (L ++ [b])).isPrefixOf (L ++ [b])
      · exact absurd (by simpa [List.concat_eq_append] using h) hb
      · rfl
    have hpre : scratchPath p (L ++ [b]) <+: L ++ [b] :=
      List.isPrefixOf_iff_prefix.mp htrue
    have hlen : (scratchPath p (L ++ [b])).length = (L ++ [b]).length := by
      simp [scratchPath, parentPath, List.dropLast_concat]
    have heq := hpre.eq_of_length hlen
    rw [scratchPath, parentPath, List.dropLast_concat] at heq
    have hname := List.append_cancel_left heq
    simp only [List.cons.injEq, and_true] at hname
    rw [lastComponent, List.getLastD_concat] at hname
    exact scratchName_ne_name b p.engine hname

@[simp] theorem rmtreeFS_log (p : FsPath) (w : World) : (rmtreeFS p w).log = w.log := rfl

theorem lookupFile_rmtreeFS (td : FsPath) (w : World) (q : FsPath)
    (h : td.isPrefixOf q = false) : lookupFile (rmtreeFS td w) q = lookupFile w q := by
  simp only [lookupFile, rmtreeFS]
  induction w.files with
  | nil => rfl
  | cons f fs ih =>
      simp only [List.filter_cons]
      by_cases hf : (f.1 == q) = true
      · have hfq : f.1 = q := by simpa using hf
        rw [hfq, h]
        simp [List.find?, hf, hfq]
      · cases htd : td.isPrefixOf f.1 <;>
          simp only [Bool.not_true, Bool.not_false, if_true, if_false, List.find?, hf,
            Bool.false_eq_true] <;> simpa using ih

theorem find?_insertFileL (p : FsPath) (d : FileData) (fs : List (FsPath × FileData)) :
    (insertFileL p d fs).find? (fun f => f.1 == p) = some (p, d) := by
  simp [insertFileL, List.find?]

theorem run_moveFilePrim (src dst : FsPath) (w : World) (d : FileData)
    (h : lookupFile w src = some d) :
    M.run (moveFilePrim src dst) w =
      .ok () { w with
        files := insertFileL dst d (w.files.filter (fun f => !(f.1 == src))),
        log := w.log ++ [.moveCall src dst] } := by
  unfold moveFilePrim
  rw [M.run_bind, M.run_getW]
  simp only [h, M.run_bind, run_logA, M.run_modifyW]
  rfl

theorem runSetup_value (p : LipSyncPipeline) (o : FsPath) (w : World)
    (td : FsPath) (w₀ : World) (h : M.run (p.runSetup o) w = .ok td w₀) :
    td = scratchPath p o := by
  obtain ⟨w', hs, _⟩ := runSetup_ok p o w
  rw [h] at hs
  cases hs
  rfl

/-- C6: with `upscale_to_1080p = false`, a successful `run()` ends with the
backend-produced file moved — content and metadata unchanged — to the final
output path: the finalize phase performs exactly one move (plus the scratch
cleanup when `keep_intermediate` is false) and never invokes ffmpeg. -/
theorem no_upscale_moves_bytes (env : Env) (p : LipSyncPipeline)
    (image audio output : FsPath) (w : World) (td : FsPath) (w₀ : World)
    (tp : FsPath) (w₁ : World) (d : FileData)
    (hup : p.upscale_to_1080p = false)
    (h1 : M.run (p.runSetup output) w = .ok td w₀)
    (h2 : M.run (p.dispatchEngine env image audio td) w₀ = .ok tp w₁)
    (h3 : lookupFile w₁ tp = some d) :
    ∃ w₂, M.run (p.run env image audio output) w = .ok output w₂ ∧
      lookupFile w₂ output = some d ∧
      w₂.log = w₁.log ++ [.moveCall tp output] ++
        (if p.keep_intermediate then ([] : List FsAction) else [.rmtreeCall td]) := by
  have htd : td = scratchPath p output := runSetup_value p output w td w₀ h1
  unfold LipSyncPipeline.run
  simp only [M.run_bind, h1, h2]
  unfold LipSyncPipeline.finalize
  simp only [M.run_bind, M.run_ite, hup, Bool.false_eq_true, if_false,
    run_moveFilePrim tp output w₁ d h3]
  by_cases hk : p.keep_intermediate = true
  · simp only [hk, Bool.not_true, Bool.false_eq_true, if_false, M.run_pure]
    refine ⟨_, rfl, ?_, by simp [hk]⟩
    simp [lookupFile, find?_insertFileL]
  · have hk' : p.keep_intermediate = false := by
      cases h : p.keep_intermediate
      · rfl
      · exact absurd h hk
    simp only [hk', Bool.not_false, if_true, run_rmtreePrim, M.run_pure]
    refine ⟨_, rfl, ?_, by simp [hk', addLog]⟩
    rw [htd, lookupFile_rmtreeFS _ _ _ (scratch_not_prefix_output p output)]
    simp [lookupFile, find?_insertFileL]

def p6 : LipSyncPipeline := { engine := "wav2lip", upscale_to_1080p := false }

def setup6 : Res FsPath := M.run (p6.runSetup ["out.mp4"]) readyWorld

def disp6 : Res FsPath :=
  M.run (p6.dispatchEngine envInferOkFfmpegFail ["i.png"] ["a.wav"]
    (scratchPath p6 ["out.mp4"])) setup6.world

theorem no_upscale_moves_bytes_witness :
    ∃ w₂, M.run (p6.run envInferOkFfmpegFail ["i.png"] ["a.wav"] ["out.mp4"]) readyWorld =
        .ok ["out.mp4"] w₂ ∧
      lookupFile w₂ ["out.mp4"] = some ⟨"vid", 3⟩ ∧
      w₂.log = disp6.world.log ++ [.moveCall (disp6.valOf.getD []) ["out.mp4"]] ++
        (if p6.keep_intermediate then ([] : List FsAction)
          else [.rmtreeCall (scratchPath p6 ["out.mp4"])]) :=
  no_upscale_moves_bytes envInferOkFfmpegFail p6 ["i.png"] ["a.wav"] ["out.mp4"]
    readyWorld (scratchPath p6 ["out.mp4"]) setup6.world (disp6.valOf.getD [])
    disp6.world ⟨"vid", 3⟩ (by decide) (by decide) (by decide) (by decide)

/-! ## C1: no integrity verification exists in the provisioner -/

/-- An environment whose network returns corrupt bytes for the Wav2Lip
checkpoint URL: the content stands for data whose digest would match no
declared checksum. -/
def envCorrupt : Env :=
  { cloneOk := true, cloneFiles := [],
    downloads := [(WAV2LIP_CHECKPOINT_URL, ⟨"CORRUPT", 1⟩), (S3FD_CHECKPOINT_URL, ⟨"s3fd", 2⟩)],
    scriptOk := false, scriptFiles := [], inferOk := false, inferFiles := [],
    ffmpegOk := false, ffmpegOut := ⟨"", 0⟩ }

def ensureCorrupt : Res Unit := M.run (Wav2LipResources.ensure envCorrupt {}) ⟨[], [], []⟩

/-- C1 (code versus spec): the provisioner declares no checksum and computes
no digest — the error type `PyErr` of the module has no integrity
constructor at all — so `ensure()` accepts a corrupt downloaded checkpoint:
it succeeds, the corrupt bytes sit at the checkpoint path, and a subsequent
`ensure()` performs no acquisition at all (the checkpoint is reported
present) and leaves the corrupt bytes in place.  This contradicts the
specified behavior (raise `IntegrityError`, do not report the checkpoint as
present). -/
theorem no_integrity_check_accepts_corrupt_checkpoint :
    ensureCorrupt.isOk = true ∧
    lookupFile ensureCorrupt.world (Wav2LipResources.wav2lip_checkpoint {}) =
      some ⟨"CORRUPT", 1⟩ ∧
    (M.run (Wav2LipResources.ensure envNoNet {}) { ensureCorrupt.world with log := [] }).isOk
      = true ∧
    acquisitionFree
      (M.run (Wav2LipResources.ensure envNoNet {})
        { ensureCorrupt.world with log := [] }).world.log = true ∧
    lookupFile
      (M.run (Wav2LipResources.ensure envNoNet {})
        { ensureCorrupt.world with log := [] }).world
      (Wav2LipResources.wav2lip_checkpoint {}) = some ⟨"CORRUPT", 1⟩ := by
  decide
